import Mathlib

/-
Shallow embedding of the mcp-controller core (proxy-server.ts, cli.ts,
types.ts) together with proofs of the frozen claims about it.

JSON values produced by JSON.parse are modelled by the inductive Json below;
JavaScript objects become ordered association lists with unique keys, object
spread is modelled by setKey, and property access by lookupField.
-/

namespace McpController

/-- Parsed JSON values, as produced by JSON.parse. Object fields keep their
insertion order; JSON.parse never produces duplicate keys. -/
inductive Json where
  | null : Json
  | bool (b : Bool) : Json
  | num (n : Int) : Json
  | str (s : String) : Json
  | arr (elems : List Json) : Json
  | obj (fields : List (String × Json)) : Json

/-- Property lookup on an object field list (first matching key). -/
def lookupField : List (String × Json) → String → Option Json
  | [], _ => none
  | (k, v) :: rest, key => if k = key then some v else lookupField rest key

/-- Object spread update, as in JavaScript spread with one overriding key:
the key keeps its original position when already present, otherwise it is
appended at the end. -/
def setKey : List (String × Json) → String → Json → List (String × Json)
  | [], key, v => [(key, v)]
  | (k, w) :: rest, key, v =>
    if k = key then (key, v) :: rest else (k, w) :: setKey rest key v

/-- The JavaScript membership test for an object property. -/
def hasKey (fields : List (String × Json)) (key : String) : Bool :=
  (lookupField fields key).isSome

/-- JavaScript truthiness of a parsed JSON value. -/
def jsTruthy : Json → Bool
  | .null => false
  | .bool b => b
  | .num n => decide (n ≠ 0)
  | .str s => decide (s ≠ "")
  | .arr _ => true
  | .obj _ => true

/-- Standard UTF-8 encoding of one character, written with division and
remainder by powers of two. -/
def utf8EncodeChar (c : Char) : List Nat :=
  if c.toNat < 0x80 then [c.toNat]
  else if c.toNat < 0x800 then
    [0xC0 + c.toNat / 64, 0x80 + c.toNat % 64]
  else if c.toNat < 0x10000 then
    [0xE0 + c.toNat / 4096, 0x80 + (c.toNat / 64) % 64, 0x80 + c.toNat % 64]
  else
    [0xF0 + c.toNat / 262144, 0x80 + (c.toNat / 4096) % 64,
     0x80 + (c.toNat / 64) % 64, 0x80 + c.toNat % 64]

/-- Standard UTF-8 encoding of a character sequence. -/
def utf8Encode (cs : List Char) : List Nat :=
  (cs.map utf8EncodeChar).flatten

/-- Decoder state of the text decoder: either between characters, or inside
a multi-byte sequence with the given number of continuation bytes still
expected and the code point bits accumulated so far. -/
inductive Utf8State where
  | start : Utf8State
  | need (k : Nat) (acc : Nat) : Utf8State

/-- The character a decoder emits for a completed code point: a surrogate
or out-of-range value becomes the replacement character. -/
def emitCodePoint (n : Nat) : Char :=
  if n < 0xD800 then Char.ofNat n
  else if n < 0xE000 then '�'
  else if n < 0x110000 then Char.ofNat n
  else '�'

/-- One between-characters step of the text decoder on a lead byte: ASCII
is emitted directly, a lead byte opens a multi-byte sequence, and a stray
continuation byte or an invalid byte becomes a replacement character. -/
def utf8StartStep (b : Nat) : List Char × Utf8State :=
  if b < 0x80 then ([Char.ofNat b], .start)
  else if b < 0xC2 then (['�'], .start)
  else if b < 0xE0 then ([], .need 1 (b - 0xC0))
  else if b < 0xF0 then ([], .need 2 (b - 0xE0))
  else if b < 0xF5 then ([], .need 3 (b - 0xF0))
  else (['�'], .start)

/-- Decoding loop of one TextDecoder.decode call with replacement on
malformed input: a non-continuation byte inside a sequence emits a
replacement character and is reprocessed as a lead byte, and an input that
ends inside a sequence emits a replacement character, since the decoder of
proxy-server.ts line 48 is constructed fresh per read and keeps no state
across calls. The model accepts some overlong three- and four-byte forms
that the platform decoder would replace; no claim evaluates it there. -/
def utf8DecodeLoop : Utf8State → List Nat → List Char
  | .start, [] => []
  | .need _ _, [] => ['�']
  | .start, b :: rest =>
    (utf8StartStep b).1 ++ utf8DecodeLoop (utf8StartStep b).2 rest
  | .need k acc, b :: rest =>
    if 0x80 ≤ b ∧ b < 0xC0 then
      if k = 1 then emitCodePoint (acc * 64 + (b - 0x80)) :: utf8DecodeLoop .start rest
      else utf8DecodeLoop (.need (k - 1) (acc * 64 + (b - 0x80))) rest
    else '�' :: ((utf8StartStep b).1 ++ utf8DecodeLoop (utf8StartStep b).2 rest)

/-- One call of new TextDecoder().decode(value) on a byte chunk, as in
proxy-server.ts line 48: a fresh, non-streaming decode of the chunk alone. -/
def utf8Decode (bytes : List Nat) : List Char :=
  utf8DecodeLoop .start bytes

/-- JavaScript String.prototype.trim on the character list level. -/
def trimChars (l : List Char) : List Char :=
  ((l.dropWhile Char.isWhitespace).reverse.dropWhile Char.isWhitespace).reverse

/-- JavaScript String.prototype.trim on strings. -/
def jsTrim (s : String) : String :=
  String.mk (trimChars s.data)

/-- Splitting a character list at every newline, keeping all segments
including the trailing one, as JavaScript String.prototype.split does. -/
def splitAllChars : List Char → List (List Char)
  | [] => [[]]
  | c :: rest =>
    match splitAllChars rest with
    | [] => [[]]
    | seg :: segs => if c = '\n' then [] :: seg :: segs else (c :: seg) :: segs

/-- JavaScript split on the newline character at the string level. -/
def splitAllNl (s : String) : List String :=
  (splitAllChars s.data).map String.mk

/-- ProxyConfig from src/types.ts. enabledTools and disabledTools are the
include / exclude pattern lists; absent means the field is undefined. -/
structure ProxyConfig where
  targetCommand : List String
  enabledTools : Option (List String) := none
  disabledTools : Option (List String) := none
  serverName : String := "mcp-controller"
  serverVersion : String := "0.1.0"

/-- Anchored glob matching of a name against a pattern, where the star
character matches any (possibly empty) character sequence and every other
pattern character is matched literally and case-sensitively. -/
def globMatch : List Char → List Char → Bool
  | [], n => n.isEmpty
  | p :: ps, n =>
    if p = '*' then n.tails.any fun suffix => globMatch ps suffix
    else
      match n with
      | [] => false
      | c :: cs => p = c && globMatch ps cs

/-- Modelled from the spec: the Pattern Matcher matchesToolPattern of
src/utils.ts, whose source file is absent from the surveyed tree. Spec 4.1:
a pattern without a wildcard character is compared by exact string equality;
a pattern containing a star is matched anchored against the whole name with
the star matching any (possibly empty) sequence and all other characters
taken literally, case-sensitively. -/
def matchesToolPattern (name pattern : String) : Bool :=
  if pattern.data.contains '*' then globMatch pattern.data name.data
  else name == pattern

/-- A tool descriptor as validated by the tools/list result schema: a name
plus opaque further fields that are passed through untouched. -/
structure Tool where
  name : String
  extra : List (String × Json) := []

/-- A tools/list result: the tools array plus opaque further result fields. -/
structure ToolsListResult where
  tools : List Tool
  extra : List (String × Json) := []

/-- filterToolsListResponse from src/proxy-server.ts (lines 104-123): when
neither pattern list is set the result is returned as is; an include list
keeps the tools whose name matches some pattern; otherwise an exclude list
keeps the tools whose name matches no pattern; only the tools array of the
result is replaced. -/
def filterToolsListResponse (config : ProxyConfig) (result : ToolsListResult) :
    ToolsListResult :=
  if config.enabledTools = none ∧ config.disabledTools = none then result
  else
    let filteredTools :=
      match config.enabledTools with
      | some enabledTools =>
        result.tools.filter fun tool =>
          enabledTools.any fun pattern => matchesToolPattern tool.name pattern
      | none =>
        match config.disabledTools with
        | some disabledTools =>
          result.tools.filter fun tool =>
            !(disabledTools.any fun pattern => matchesToolPattern tool.name pattern)
        | none => result.tools
    { result with tools := filteredTools }

/-- Property access on a parsed JSON value; none models undefined. -/
def jsonField (j : Json) (key : String) : Option Json :=
  match j with
  | .obj fields => lookupField fields key
  | _ => none

/-- The name of a parsed tool object as read by tool.name, with the
JavaScript undefined rendered as the interpolation text. -/
def toolNameJ (tool : Json) : String :=
  match tool with
  | .obj fields =>
    match lookupField fields "name" with
    | some (.str s) => s
    | _ => "undefined"
  | _ => "undefined"

/-- The description printed by the One-Shot Lister for a tool: the
description field when it is a truthy string, else the fixed placeholder
(cli.ts line 353). -/
def toolDescriptionJ (tool : Json) : String :=
  match tool with
  | .obj fields =>
    match lookupField fields "description" with
    | some (.str s) => if s = "" then "No description available" else s
    | _ => "No description available"
  | _ => "No description available"

/-- The message interpolated from response.error.message when the One-Shot
Lister constructs its failure text. Non-string values are modelled by the
interpolation text for undefined; the claims evaluate this only at string
messages. -/
def errorMessageJ (err : Json) : String :=
  match err with
  | .obj fields =>
    match lookupField fields "message" with
    | some (.str m) => m
    | _ => "undefined"
  | _ => "undefined"

/-- The include or exclude filtering applied by the One-Shot Lister
(cli.ts lines 343-349): membership of the exact tool name in the configured
pattern list, via Array.prototype.includes. -/
def listToolsFilterTools (config : ProxyConfig) (tools : List Json) : List Json :=
  match config.enabledTools with
  | some enabledTools =>
    tools.filter fun tool => enabledTools.contains (toolNameJ tool)
  | none =>
    match config.disabledTools with
    | some disabledTools =>
      tools.filter fun tool => !(disabledTools.contains (toolNameJ tool))
    | none => tools

/-- Result of the try block at cli.ts lines 335-357 for one parsed line:
found means the tools were printed and the function returned; thrown means
an exception reached the catch at line 358 (which reacts with continue);
skipped means the line had an id other than 2. -/
inductive TryResult where
  | found (output : List String) : TryResult
  | thrown (message : String) : TryResult
  | skipped : TryResult
deriving DecidableEq

/-- Output lines produced for a tools array by the One-Shot Lister
(cli.ts 343-354): filtering followed by one formatted line per tool. -/
def tryEmit (config : ProxyConfig) (tools : List Json) : TryResult :=
  .found ((listToolsFilterTools config tools).map fun tool =>
    toolNameJ tool ++ ": " ++ toolDescriptionJ tool)

/-- Reading response.result.tools in the One-Shot Lister (cli.ts 343): a
missing or null result throws a TypeError; a falsy tools member defaults to
the empty array; a non-empty string tools member with a filter list set
makes filter throw, and without one is iterated per character by for..of,
printing the placeholder line for each character; any other truthy
non-array tools member throws, at filter or at for..of. -/
def tryReadTools (config : ProxyConfig) (response : Json) : TryResult :=
  match jsonField response "result" with
  | none => .thrown "TypeError"
  | some .null => .thrown "TypeError"
  | some (.obj resFields) =>
    match lookupField resFields "tools" with
    | some (.arr tools) => tryEmit config tools
    | some (.str s) =>
      if s = "" then tryEmit config []
      else
        match config.enabledTools, config.disabledTools with
        | none, none =>
          .found (s.data.map fun _ => "undefined: No description available")
        | _, _ => .thrown "TypeError"
    | some v => if jsTruthy v then .thrown "TypeError" else tryEmit config []
    | none => tryEmit config []
  | some _ => tryEmit config []

/-- Body of the try block of the One-Shot Lister for one parsed response
line (cli.ts 336-357): on id 2 with a truthy error member an Error carrying
the server-supplied message is thrown; otherwise the tools are read,
filtered and emitted; any other id is skipped. -/
def tryProcessId2Line (config : ProxyConfig) (response : Json) : TryResult :=
  match jsonField response "id" with
  | some (.num 2) =>
    match jsonField response "error" with
    | some err =>
      if jsTruthy err then
        .thrown ("Tools list failed: " ++ errorMessageJ err)
      else
        tryReadTools config response
    | none => tryReadTools config response
  | _ => .skipped

/-- Scan of the split buffer by the One-Shot Lister (cli.ts 333-363):
blank lines are skipped, lines that fail to parse are skipped by the catch,
a thrown error from the try block is swallowed by the same catch and the
scan continues; the first found output wins. -/
def findToolsOutput (parse : String → Option Json) (config : ProxyConfig) :
    List String → Option (List String)
  | [] => none
  | line :: rest =>
    if jsTrim line = "" then findToolsOutput parse config rest
    else
      match parse (jsTrim line) with
      | none => findToolsOutput parse config rest
      | some response =>
        match tryProcessId2Line config response with
        | .found output => some output
        | .thrown _ => findToolsOutput parse config rest
        | .skipped => findToolsOutput parse config rest

/-- Outcome of the One-Shot Lister run after the tools/list request:
printed means the tool lines were written and the run returned with exit
code 0; failed carries the diagnostic line written before exiting with a
non-zero code. -/
inductive ListToolsOutcome where
  | printed (lines : List String) : ListToolsOutcome
  | failed (stderrLine : String) : ListToolsOutcome
deriving DecidableEq

/-- The tools/list read loop of the One-Shot Lister (cli.ts 324-370): each
read chunk is appended to the accumulated buffer, the whole buffer is split
on newlines and rescanned; when the stream ends without a found output the
generic no-response error reaches the outer catch. -/
def listToolsReadLoop (parse : String → Option Json) (config : ProxyConfig) :
    String → List String → ListToolsOutcome
  | _, [] => .failed "Error listing tools: No tools/list response received"
  | buffer, chunk :: rest =>
    match findToolsOutput parse config (splitAllNl (buffer ++ chunk)) with
    | some output => .printed output
    | none => listToolsReadLoop parse config (buffer ++ chunk) rest

/-- Modelled from the spec: success of JSONRPCMessageSchema.safeParse, whose
source lives in the external protocol SDK. Spec section 3 and 6: a JSON-RPC
message is an object with the jsonrpc version tag and one of the method,
result or error members. -/
def jsonRpcMessageOk (j : Json) : Bool :=
  match j with
  | .obj fields =>
    (match lookupField fields "jsonrpc" with
     | some (.str v) => v = "2.0"
     | _ => false) &&
    (hasKey fields "method" || hasKey fields "result" || hasKey fields "error")
  | _ => false

/-- Modelled from the spec: the tool shape accepted by the tools/list result
schema of the external protocol SDK. Spec section 3 ToolDescriptor: an
object bearing at least a name string; all other fields are opaque. -/
def toolOk (tool : Json) : Bool :=
  match tool with
  | .obj fields =>
    match lookupField fields "name" with
    | some (.str _) => true
    | _ => false
  | _ => false

/-- filterToolsListResponse at the parsed-JSON level, exactly as the filter
rewrites the zod-validated result object (proxy-server.ts 104-123): with no
pattern list the result fields are returned untouched; otherwise the tools
array is filtered by matchesToolPattern on the tool name and only the tools
member of the result is replaced. -/
def filterToolsListResponseJ (config : ProxyConfig)
    (resFields : List (String × Json)) (tools : List Json) :
    List (String × Json) :=
  if config.enabledTools = none ∧ config.disabledTools = none then resFields
  else
    let filteredTools :=
      match config.enabledTools with
      | some enabledTools =>
        tools.filter fun tool =>
          enabledTools.any fun pattern => matchesToolPattern (toolNameJ tool) pattern
      | none =>
        match config.disabledTools with
        | some disabledTools =>
          tools.filter fun tool =>
            !(disabledTools.any fun pattern => matchesToolPattern (toolNameJ tool) pattern)
        | none => tools
    setKey resFields "tools" (.arr filteredTools)

/-- The rewriting core of processMessage (proxy-server.ts 76-102) on a
parsed message: some new message when the line is rewritten (a successful
response whose result is tool-list shaped), none when the source returns
the original line unchanged. -/
def processMessageJson (config : ProxyConfig) (j : Json) : Option Json :=
  if jsonRpcMessageOk j then
    match j with
    | .obj fields =>
      if hasKey fields "result" && !hasKey fields "method" && !hasKey fields "error" then
        match lookupField fields "result" with
        | some (.obj resFields) =>
          match lookupField resFields "tools" with
          | some (.arr tools) =>
            if tools.all toolOk then
              some (.obj (setKey fields "result"
                (.obj (filterToolsListResponseJ config resFields tools))))
            else none
          | _ => none
        | _ => none
      else none
    | _ => none
  else none

/-- processMessage (proxy-server.ts 76-102) at the line level, abstracted
over the ambient JSON parser and serializer: a parse failure is caught and
the line is returned unchanged; a message that is not rewritten returns the
original line; a rewritten message is re-serialized. The function is total,
so no error ever propagates to the caller. -/
def processMessage (parse : String → Option Json) (stringify : Json → String)
    (config : ProxyConfig) (line : String) : String :=
  match parse line with
  | none => line
  | some j =>
    match processMessageJson config j with
    | some out => stringify out
    | none => line

/-- Splitting of the accumulated buffer by the forwarding pump
(proxy-server.ts 51-52): buffer.split on the newline character, with the
last segment popped back into the buffer as the carried incomplete line.
Returns the complete lines and the carried remainder. -/
def splitBuffer : List Char → List (List Char) × List Char
  | [] => ([], [])
  | c :: rest =>
    if c = '\n' then ([] :: (splitBuffer rest).1, (splitBuffer rest).2)
    else
      match splitBuffer rest with
      | ([], carry) => ([], c :: carry)
      | (l :: ls, carry) => ((c :: l) :: ls, carry)

/-- The frame-reading part of the child-to-client pump (proxy-server.ts
42-62): each chunk is appended to the carried buffer, the complete lines
are emitted in order and the trailing remainder is carried to the next
read; at end of stream the carried remainder is returned, not emitted. -/
def feedChunks : List Char → List (List Char) → List (List Char) × List Char
  | buffer, [] => ([], buffer)
  | buffer, chunk :: rest =>
    ((splitBuffer (buffer ++ chunk)).1 ++
       (feedChunks (splitBuffer (buffer ++ chunk)).2 rest).1,
     (feedChunks (splitBuffer (buffer ++ chunk)).2 rest).2)

/-- The frame-reading part of the child-to-client pump at the byte level
(proxy-server.ts 42-62): each read delivers a byte chunk, which is decoded
by a fresh non-streaming TextDecoder call, appended to the carried string
buffer and split; the complete lines are emitted and the trailing remainder
carried to the next read. -/
def feedByteChunks : List Char → List (List Nat) → List (List Char) × List Char
  | buffer, [] => ([], buffer)
  | buffer, chunk :: rest =>
    ((splitBuffer (buffer ++ utf8Decode chunk)).1 ++
       (feedByteChunks (splitBuffer (buffer ++ utf8Decode chunk)).2 rest).1,
     (feedByteChunks (splitBuffer (buffer ++ utf8Decode chunk)).2 rest).2)

/-- What the pump writes for one complete line (proxy-server.ts 54-61): a
whitespace-only line is forwarded as a bare newline; any other line is
trimmed, put through the per-line transform and written with a trailing
newline. -/
def writeLine (f : List Char → List Char) (line : List Char) : List Char :=
  if trimChars line = [] then ['\n'] else f (trimChars line) ++ ['\n']

/-- The writes performed by the whole read loop of the child-to-client pump
(proxy-server.ts 42-62), abstracted over the per-line transform: only the
complete lines of each read are written; when the stream ends the carried
remainder is dropped. -/
def readLoopWrites (f : List Char → List Char) :
    List Char → List (List Char) → List (List Char)
  | _, [] => []
  | buffer, chunk :: rest =>
    (splitBuffer (buffer ++ chunk)).1.map (writeLine f) ++
      readLoopWrites f (splitBuffer (buffer ++ chunk)).2 rest

/-- Declarative semantics of an anchored glob pattern over a name: the empty
pattern matches the empty name, a non-star character matches itself, and a
star matches any (possibly empty) character sequence before the rest of the
pattern matches the rest of the name. -/
inductive GlobSem : List Char → List Char → Prop where
  | nil : GlobSem [] []
  | lit {c : Char} {ps ns : List Char} :
      c ≠ '*' → GlobSem ps ns → GlobSem (c :: ps) (c :: ns)
  | star {ps s ns : List Char} : GlobSem ps ns → GlobSem ('*' :: ps) (s ++ ns)

/-- A configuration with no pattern lists, as built by the CLI when neither
filtering flag is given. -/
def cfgPlain : ProxyConfig :=
  { targetCommand := ["bun", "run", "server.ts"] }

/-- A configuration with the include list containing the single exact
pattern add. -/
def cfgAdd : ProxyConfig :=
  { targetCommand := ["bun", "run", "server.ts"], enabledTools := some ["add"] }

/-- A configuration with the include list containing the single wildcard
pattern for names starting with get followed by a dash. -/
def cfgGetStar : ProxyConfig :=
  { targetCommand := ["bun", "run", "server.ts"], enabledTools := some ["get-*"] }

/-- A configuration with the exclude list containing the single exact
pattern add. -/
def cfgNotAdd : ProxyConfig :=
  { targetCommand := ["bun", "run", "server.ts"], disabledTools := some ["add"] }

/-- The add tool of the test fixture server, as a parsed JSON object. -/
def sampleToolAdd : Json :=
  .obj [("name", .str "add"), ("description", .str "Add two numbers")]

/-- The subtract tool of the test fixture server, as a parsed JSON object. -/
def sampleToolSubtract : Json :=
  .obj [("name", .str "subtract")]

/-- The get-args tool of the test fixture server, as a parsed JSON object. -/
def sampleToolGetArgs : Json :=
  .obj [("name", .str "get-args")]

/-- The typed add tool. -/
def toolAdd : Tool := { name := "add" }

/-- The typed subtract tool. -/
def toolSubtract : Tool := { name := "subtract" }

/-- The typed get-args tool. -/
def toolGetArgs : Tool := { name := "get-args" }

/-- The fixture tool list as a tools/list result with one extra opaque
result field. -/
def sampleResult : ToolsListResult :=
  { tools := [toolAdd, toolSubtract, toolGetArgs],
    extra := [("nextCursor", .str "page2")] }

/-- The result fields of a parsed tools/list response message. -/
def sampleResFields : List (String × Json) :=
  [("tools", .arr [sampleToolAdd, sampleToolGetArgs]), ("nextCursor", .str "page2")]

/-- The fields of a complete parsed tools/list response message. -/
def sampleFields : List (String × Json) :=
  [("jsonrpc", .str "2.0"), ("id", .num 2), ("result", .obj sampleResFields)]

/-- A parsed tools/list error response with id 2 and a server-supplied
message. -/
def errorResponseJson : Json :=
  .obj [("jsonrpc", .str "2.0"), ("id", .num 2),
        ("error", .obj [("code", .num (-1)), ("message", .str "boom")])]

/-- A parsed tools/list success response with id 2 carrying the add tool. -/
def successResponseJson : Json :=
  .obj [("jsonrpc", .str "2.0"), ("id", .num 2),
        ("result", .obj [("tools", .arr [sampleToolAdd])])]

/-- A concrete stand-in for JSON.parse in the One-Shot Lister runs: the
line E parses to the error response, the line S to the success response,
anything else fails to parse. -/
def parseFixture : String → Option Json := fun s =>
  if s = "E" then some errorResponseJson
  else if s = "S" then some successResponseJson
  else none

/-
Helper lemmas. None of them is a claim theorem.
-/

theorem globMatch_of_sem {p n : List Char} (h : GlobSem p n) : globMatch p n = true := by
  induction h with
  | nil => rfl
  | lit hc _ ih => simp [globMatch, hc, ih]
  | @star ps s ns hsem ih =>
    have hx : ∃ x ∈ (s ++ ns).tails, globMatch ps x = true :=
      ⟨ns, (List.mem_tails _ _).mpr (List.suffix_append _ _), ih⟩
    simpa [globMatch] using List.any_eq_true.mpr hx

theorem sem_of_globMatch : ∀ p n : List Char, globMatch p n = true → GlobSem p n := by
  intro p
  induction p with
  | nil =>
    intro n h
    cases n with
    | nil => exact GlobSem.nil
    | cons a as => simp [globMatch] at h
  | cons c ps ih =>
    intro n h
    by_cases hc : c = '*'
    · subst hc
      simp only [globMatch, if_pos rfl] at h
      obtain ⟨suffix, hmem, hm⟩ := List.any_eq_true.mp h
      obtain ⟨pre, rfl⟩ := (List.mem_tails _ _).mp hmem
      exact GlobSem.star (ih _ hm)
    · cases n with
      | nil => simp [globMatch, hc] at h
      | cons a as =>
        simp only [globMatch, if_neg hc, Bool.and_eq_true, decide_eq_true_eq] at h
        obtain ⟨rfl, hm⟩ := h
        exact GlobSem.lit hc (ih _ hm)

theorem lookupField_setKey_ne (fields : List (String × Json)) (key key' : String)
    (v : Json) (h : key' ≠ key) :
    lookupField (setKey fields key v) key' = lookupField fields key' := by
  induction fields with
  | nil =>
    simp only [setKey, lookupField]
    rw [if_neg (fun heq => h heq.symm)]
  | cons kv rest ih =>
    obtain ⟨k, w⟩ := kv
    by_cases hk : k = key
    · subst hk
      simp only [setKey, if_pos rfl, lookupField]
      rw [if_neg (fun heq => h heq.symm), if_neg (fun heq => h heq.symm)]
    · simp only [setKey, if_neg hk, lookupField, ih]

theorem splitBuffer_snd_no_newline (s : List Char) : '\n' ∉ (splitBuffer s).2 := by
  induction s with
  | nil => simp [splitBuffer]
  | cons c rest ih =>
    by_cases hc : c = '\n'
    · simpa [splitBuffer, hc] using ih
    · rcases hsp : splitBuffer rest with ⟨ls, carry⟩
      rw [hsp] at ih
      cases ls with
      | nil =>
        simp [splitBuffer, hc, hsp]
        exact ⟨fun heq => hc heq.symm, ih⟩
      | cons l ls' => simpa [splitBuffer, hc, hsp] using ih

theorem splitBuffer_no_newline {s : List Char} (h : '\n' ∉ s) : splitBuffer s = ([], s) := by
  induction s with
  | nil => rfl
  | cons c rest ih =>
    have hc : ¬(c = '\n') := fun heq => h (heq ▸ List.mem_cons_self c rest)
    have hrest : '\n' ∉ rest := fun hm => h (List.mem_cons_of_mem c hm)
    simp [splitBuffer, hc, ih hrest]

theorem splitBuffer_append (a b : List Char) :
    splitBuffer (a ++ b) =
      ((splitBuffer a).1 ++ (splitBuffer ((splitBuffer a).2 ++ b)).1,
       (splitBuffer ((splitBuffer a).2 ++ b)).2) := by
  induction a with
  | nil => simp [splitBuffer]
  | cons c a' ih =>
    by_cases hc : c = '\n'
    · subst hc
      simp [splitBuffer, ih]
    · rcases hT : splitBuffer a' with ⟨tl, tr⟩
      rw [hT] at ih
      cases tl with
      | nil =>
        rcases hW : splitBuffer (tr ++ b) with ⟨wl, wr⟩
        rw [hW] at ih
        cases wl with
        | nil => simp [splitBuffer, hc, hT, hW, ih]
        | cons w ws => simp [splitBuffer, hc, hT, hW, ih]
      | cons t ts =>
        rcases hW : splitBuffer (tr ++ b) with ⟨wl, wr⟩
        rw [hW] at ih
        simp [splitBuffer, hc, hT, hW, ih]

theorem feedChunks_flatten (chunks : List (List Char)) :
    ∀ buffer : List Char, '\n' ∉ buffer →
      feedChunks buffer chunks = splitBuffer (buffer ++ chunks.flatten) := by
  induction chunks with
  | nil =>
    intro buffer h
    simp [feedChunks, splitBuffer_no_newline h]
  | cons chunk rest ih =>
    intro buffer h
    have hstep := ih (splitBuffer (buffer ++ chunk)).2 (splitBuffer_snd_no_newline _)
    simp only [feedChunks, hstep, List.flatten_cons, ← List.append_assoc]
    rw [splitBuffer_append (buffer ++ chunk) rest.flatten]

theorem readLoopWrites_flatten (f : List Char → List Char) (chunks : List (List Char)) :
    ∀ buffer : List Char, '\n' ∉ buffer →
      readLoopWrites f buffer chunks =
        ((splitBuffer (buffer ++ chunks.flatten)).1).map (writeLine f) := by
  induction chunks with
  | nil =>
    intro buffer h
    simp [readLoopWrites, splitBuffer_no_newline h]
  | cons chunk rest ih =>
    intro buffer h
    have hstep := ih (splitBuffer (buffer ++ chunk)).2 (splitBuffer_snd_no_newline _)
    simp only [readLoopWrites, hstep, List.flatten_cons, ← List.append_assoc]
    rw [splitBuffer_append (buffer ++ chunk) rest.flatten]
    simp [List.map_append]

theorem utf8DecodeLoop_start_cons (b : Nat) (rest : List Nat) :
    utf8DecodeLoop .start (b :: rest) =
      (utf8StartStep b).1 ++ utf8DecodeLoop (utf8StartStep b).2 rest := rfl

theorem utf8DecodeLoop_need_cons (k acc b : Nat) (rest : List Nat) :
    utf8DecodeLoop (.need k acc) (b :: rest) =
      if 0x80 ≤ b ∧ b < 0xC0 then
        if k = 1 then emitCodePoint (acc * 64 + (b - 0x80)) :: utf8DecodeLoop .start rest
        else utf8DecodeLoop (.need (k - 1) (acc * 64 + (b - 0x80))) rest
      else '�' :: ((utf8StartStep b).1 ++ utf8DecodeLoop (utf8StartStep b).2 rest) := rfl

theorem emitCodePoint_toNat (c : Char) : emitCodePoint c.toNat = c := by
  have hval : c.toNat < 0xD800 ∨ (0xE000 ≤ c.toNat ∧ c.toNat < 0x110000) := c.valid
  unfold emitCodePoint
  rcases hval with hv | ⟨hv1, hv2⟩
  · rw [if_pos hv]
    exact Char.ofNat_toNat c
  · rw [if_neg (by omega), if_neg (by omega), if_pos hv2]
    exact Char.ofNat_toNat c

theorem utf8DecodeLoop_encodeChar (c : Char) (tail : List Nat) :
    utf8DecodeLoop .start (utf8EncodeChar c ++ tail) = c :: utf8DecodeLoop .start tail := by
  have hval : c.toNat < 0xD800 ∨ (0xE000 ≤ c.toNat ∧ c.toNat < 0x110000) := c.valid
  have hmax : c.toNat < 0x110000 := by omega
  by_cases h1 : c.toNat < 0x80
  · simp only [utf8EncodeChar, if_pos h1, List.cons_append, List.nil_append,
      utf8DecodeLoop_start_cons]
    have hs : utf8StartStep c.toNat = ([Char.ofNat c.toNat], .start) := by
      unfold utf8StartStep
      rw [if_pos h1]
    rw [hs]
    simp [Char.ofNat_toNat]
  · by_cases h2 : c.toNat < 0x800
    · simp only [utf8EncodeChar, if_neg h1, if_pos h2, List.cons_append, List.nil_append,
        utf8DecodeLoop_start_cons]
      have hs : utf8StartStep (0xC0 + c.toNat / 64) = ([], .need 1 (c.toNat / 64)) := by
        unfold utf8StartStep
        rw [if_neg (by omega), if_neg (by omega), if_pos (by omega)]
        have e : 0xC0 + c.toNat / 64 - 0xC0 = c.toNat / 64 := by omega
        rw [e]
      rw [hs]
      rw [utf8DecodeLoop_need_cons]
      rw [if_pos ⟨by omega, by omega⟩, if_pos rfl]
      have e2 : c.toNat / 64 * 64 + (0x80 + c.toNat % 64 - 0x80) = c.toNat := by omega
      rw [e2, emitCodePoint_toNat]
      simp
    · by_cases h3 : c.toNat < 0x10000
      · simp only [utf8EncodeChar, if_neg h1, if_neg h2, if_pos h3, List.cons_append,
          List.nil_append, utf8DecodeLoop_start_cons]
        have hs : utf8StartStep (0xE0 + c.toNat / 4096) = ([], .need 2 (c.toNat / 4096)) := by
          unfold utf8StartStep
          rw [if_neg (by omega), if_neg (by omega), if_neg (by omega), if_pos (by omega)]
          have e : 0xE0 + c.toNat / 4096 - 0xE0 = c.toNat / 4096 := by omega
          rw [e]
        rw [hs]
        rw [utf8DecodeLoop_need_cons, if_pos ⟨by omega, by omega⟩, if_neg (by omega)]
        rw [utf8DecodeLoop_need_cons, if_pos ⟨by omega, by omega⟩, if_pos rfl]
        have e3 : (c.toNat / 4096 * 64 + (0x80 + c.toNat / 64 % 64 - 0x80)) * 64 +
            (0x80 + c.toNat % 64 - 0x80) = c.toNat := by omega
        rw [e3, emitCodePoint_toNat]
        simp
      · simp only [utf8EncodeChar, if_neg h1, if_neg h2, if_neg h3, List.cons_append,
          List.nil_append, utf8DecodeLoop_start_cons]
        have hs : utf8StartStep (0xF0 + c.toNat / 262144) =
            ([], .need 3 (c.toNat / 262144)) := by
          unfold utf8StartStep
          rw [if_neg (by omega), if_neg (by omega), if_neg (by omega), if_neg (by omega),
            if_pos (by omega)]
          have e : 0xF0 + c.toNat / 262144 - 0xF0 = c.toNat / 262144 := by omega
          rw [e]
        rw [hs]
        rw [utf8DecodeLoop_need_cons, if_pos ⟨by omega, by omega⟩, if_neg (by omega)]
        rw [utf8DecodeLoop_need_cons, if_pos ⟨by omega, by omega⟩, if_neg (by omega)]
        rw [utf8DecodeLoop_need_cons, if_pos ⟨by omega, by omega⟩, if_pos rfl]
        have e3 : ((c.toNat / 262144 * 64 + (0x80 + c.toNat / 4096 % 64 - 0x80)) * 64 +
            (0x80 + c.toNat / 64 % 64 - 0x80)) * 64 + (0x80 + c.toNat % 64 - 0x80) =
            c.toNat := by omega
        rw [e3, emitCodePoint_toNat]
        simp

theorem utf8Decode_encode_append (cs : List Char) (tail : List Nat) :
    utf8DecodeLoop .start (utf8Encode cs ++ tail) = cs ++ utf8DecodeLoop .start tail := by
  induction cs with
  | nil => simp [utf8Encode]
  | cons c cs' ih =>
    simp only [utf8Encode, List.map_cons, List.flatten_cons, List.append_assoc]
    rw [utf8DecodeLoop_encodeChar]
    rw [show (List.map utf8EncodeChar cs').flatten = utf8Encode cs' from rfl, ih]
    simp

theorem utf8Decode_encode (cs : List Char) : utf8Decode (utf8Encode cs) = cs := by
  have h := utf8Decode_encode_append cs []
  simpa [utf8Decode, utf8DecodeLoop] using h

theorem feedByteChunks_encode (ccs : List (List Char)) :
    ∀ buffer : List Char,
      feedByteChunks buffer (ccs.map utf8Encode) = feedChunks buffer ccs := by
  induction ccs with
  | nil => intro buffer; rfl
  | cons cs rest ih =>
    intro buffer
    simp only [List.map_cons, feedByteChunks, feedChunks, utf8Decode_encode, ih]

/-
Claim theorems.
-/

/-- C1: for every input line that either fails to parse as JSON or does not
conform to the JSON-RPC message schema, and for every ProxyConfig, the
Message Filter process operation returns the line unchanged; the embedding
is a total function, so no error propagates to the caller. -/
theorem processMessage_fail_open (parse : String → Option Json)
    (stringify : Json → String) (config : ProxyConfig) (line : String)
    (h : parse line = none ∨ ∃ j, parse line = some j ∧ jsonRpcMessageOk j = false) :
    processMessage parse stringify config line = line := by
  rcases h with h | ⟨j, hj, hok⟩
  · simp [processMessage, h]
  · simp [processMessage, hj, processMessageJson, hok]

/-- Witness for C1: a line that fails to parse is returned unchanged. -/
theorem processMessage_fail_open_witness :
    processMessage (fun _ => none) (fun _ => "") cfgPlain "not json" = "not json" :=
  processMessage_fail_open (fun _ => none) (fun _ => "") cfgPlain "not json" (Or.inl rfl)

/-- C2 (refuted, code bug): the One-Shot Lister filtering is not equivalent
to the Message Filter filtering. With include patterns containing the
wildcard pattern for names starting with get and a dash, and the fixture
tool list add, subtract, get-args, the lister retains nothing because it
tests exact membership of the tool name in the pattern list, while
filterToolsListResponse retains get-args because matchesToolPattern accepts
it; the wildcard tests of the repository expect the lister to retain it. -/
theorem listTools_wildcard_filtering_divergence :
    (listToolsFilterTools cfgGetStar
      [sampleToolAdd, sampleToolSubtract, sampleToolGetArgs]).map toolNameJ = [] ∧
    ((filterToolsListResponse cfgGetStar sampleResult).tools).map Tool.name = ["get-args"] ∧
    matchesToolPattern "get-args" "get-*" = true :=
  ⟨rfl, rfl, rfl⟩

/-- C3 (refuted, code bug): when the first line with id 2 carries an error
member, the One-Shot Lister does not fail with the server-supplied message.
The try block does construct the Tools-list-failed error (second conjunct),
but the throw is caught by the same catch that guards JSON parsing, which
reacts with continue: a run whose stream then ends fails with the generic
no-response diagnostic instead (first conjunct), and a run in which a later
id 2 line succeeds even prints that tool list and exits successfully
(third conjunct). -/
theorem listTools_error_response_swallowed :
    listToolsReadLoop parseFixture cfgPlain "" ["E\n"] =
      .failed "Error listing tools: No tools/list response received" ∧
    tryProcessId2Line cfgPlain errorResponseJson = .thrown "Tools list failed: boom" ∧
    listToolsReadLoop parseFixture cfgPlain "" ["E\nS\n"] =
      .printed ["add: Add two numbers"] :=
  ⟨rfl, rfl, rfl⟩

/-- C4: for every JSON-RPC response whose result is tool-list shaped and
every ProxyConfig, the Message Filter rewrites the message to the filtered
result, and the rewritten message agrees with the input on every outer
field other than result and on every result field other than tools. -/
theorem processMessage_preserves_other_fields (config : ProxyConfig)
    (fields resFields : List (String × Json)) (tools : List Json)
    (hok : jsonRpcMessageOk (.obj fields) = true)
    (hres : lookupField fields "result" = some (.obj resFields))
    (hm : hasKey fields "method" = false)
    (he : hasKey fields "error" = false)
    (ht : lookupField resFields "tools" = some (.arr tools))
    (hall : tools.all toolOk = true) :
    processMessageJson config (.obj fields) =
      some (.obj (setKey fields "result"
        (.obj (filterToolsListResponseJ config resFields tools)))) ∧
    (∀ key, key ≠ "result" →
      lookupField (setKey fields "result"
        (.obj (filterToolsListResponseJ config resFields tools))) key =
        lookupField fields key) ∧
    (∀ key, key ≠ "tools" →
      lookupField (filterToolsListResponseJ config resFields tools) key =
        lookupField resFields key) := by
  refine ⟨?_, ?_, ?_⟩
  · have hres' : hasKey fields "result" = true := by simp [hasKey, hres]
    simp [processMessageJson, hok, hres', hres, hm, he, ht, hall]
  · intro key hkey
    exact lookupField_setKey_ne fields "result" key _ hkey
  · intro key hkey
    by_cases hcfg : config.enabledTools = none ∧ config.disabledTools = none
    · simp [filterToolsListResponseJ, hcfg]
    · simp only [filterToolsListResponseJ, if_neg hcfg]
      exact lookupField_setKey_ne resFields "tools" key _ hkey

/-- Witness for C4: on a concrete tools/list response the id field survives
the rewrite unchanged. -/
theorem processMessage_preserves_other_fields_witness :
    lookupField (setKey sampleFields "result"
      (.obj (filterToolsListResponseJ cfgAdd sampleResFields
        [sampleToolAdd, sampleToolGetArgs]))) "id" = lookupField sampleFields "id" :=
  (processMessage_preserves_other_fields cfgAdd sampleFields sampleResFields
    [sampleToolAdd, sampleToolGetArgs] rfl rfl rfl rfl rfl rfl).2.1 "id" (by decide)

/-- C5 counterexample: the chunking invariance fails on byte chunks,
because the pump decodes each read with a fresh non-streaming TextDecoder.
The two-byte character with code point 0xE9 followed by a newline, split
between its two bytes, decodes to two replacement characters chunked but to
the character itself in a single read, so the emitted lines differ. -/
theorem frameReader_chunking_counterexample :
    feedByteChunks [] [[0xC3], [0xA9, 0x0A]] ≠
      feedByteChunks [] [[0xC3] ++ [0xA9, 0x0A]] := by decide

/-- C5 amended: feeding a sequence of byte chunks whose boundaries all fall
on UTF-8 character boundaries, one chunk at a time, through the frame
reading of the child-to-client pump emits the same complete lines and
leaves the same carried remainder as feeding the concatenation of all
chunks as one single read. -/
theorem frameReader_chunking_invariance_aligned (charChunks : List (List Char)) :
    feedByteChunks [] (charChunks.map utf8Encode) =
      feedByteChunks [] [utf8Encode charChunks.flatten] := by
  rw [feedByteChunks_encode charChunks []]
  rw [show [utf8Encode charChunks.flatten] = [charChunks.flatten].map utf8Encode from rfl]
  rw [feedByteChunks_encode [charChunks.flatten] []]
  rw [feedChunks_flatten charChunks [] (by simp),
    feedChunks_flatten [charChunks.flatten] [] (by simp)]
  simp

/-- C6: whenever the include list is set, filterToolsListResponse retains
exactly the tools whose name matches at least one pattern of the list. -/
theorem includeFilter_retains_exactly_matches (config : ProxyConfig)
    (result : ToolsListResult) (enabledTools : List String)
    (h : config.enabledTools = some enabledTools) :
    ∀ tool, tool ∈ (filterToolsListResponse config result).tools ↔
      (tool ∈ result.tools ∧
        ∃ pattern ∈ enabledTools, matchesToolPattern tool.name pattern = true) := by
  intro tool
  have hcond : ¬(config.enabledTools = none ∧ config.disabledTools = none) := by
    rintro ⟨h1, _⟩
    rw [h] at h1
    cases h1
  simp [filterToolsListResponse, hcond, h, List.mem_filter, List.any_eq_true]

/-- Witness for C6: with the include list containing only add and the
fixture tool list add, subtract, get-args, the add tool is retained and the
filtered list is exactly the add tool. -/
theorem includeFilter_retains_exactly_matches_witness :
    toolAdd ∈ (filterToolsListResponse cfgAdd sampleResult).tools ∧
    (filterToolsListResponse cfgAdd sampleResult).tools = [toolAdd] := by
  constructor
  · exact (includeFilter_retains_exactly_matches cfgAdd sampleResult ["add"] rfl toolAdd).mpr
      ⟨List.mem_cons_self _ _, "add", List.mem_cons_self _ _, by decide⟩
  · rfl

/-- C7: for a fixed tool list and pattern set, the include-filtered tools
and the exclude-filtered tools with the same patterns partition the
original list: no tool is in both, every tool of the list is in one of
them, and the lengths add up to the original length. -/
theorem include_exclude_filters_partition (patterns : List String)
    (result : ToolsListResult) (cfgInc cfgExc : ProxyConfig)
    (hinc : cfgInc.enabledTools = some patterns)
    (hexc1 : cfgExc.enabledTools = none) (hexc2 : cfgExc.disabledTools = some patterns) :
    (∀ tool, ¬(tool ∈ (filterToolsListResponse cfgInc result).tools ∧
               tool ∈ (filterToolsListResponse cfgExc result).tools)) ∧
    (∀ tool ∈ result.tools,
      tool ∈ (filterToolsListResponse cfgInc result).tools ∨
      tool ∈ (filterToolsListResponse cfgExc result).tools) ∧
    (filterToolsListResponse cfgInc result).tools.length +
      (filterToolsListResponse cfgExc result).tools.length = result.tools.length := by
  have hi : (filterToolsListResponse cfgInc result).tools =
      result.tools.filter
        (fun tool => patterns.any fun pattern => matchesToolPattern tool.name pattern) := by
    have hcond : ¬(cfgInc.enabledTools = none ∧ cfgInc.disabledTools = none) := by
      rintro ⟨h1, _⟩
      rw [hinc] at h1
      cases h1
    simp [filterToolsListResponse, hcond, hinc]
  have hx : (filterToolsListResponse cfgExc result).tools =
      result.tools.filter
        (fun tool => !(patterns.any fun pattern => matchesToolPattern tool.name pattern)) := by
    have hcond : ¬(cfgExc.enabledTools = none ∧ cfgExc.disabledTools = none) := by
      rintro ⟨_, h2⟩
      rw [hexc2] at h2
      cases h2
    simp [filterToolsListResponse, hcond, hexc1, hexc2]
  refine ⟨?_, ?_, ?_⟩
  · rintro tool ⟨h1, h2⟩
    rw [hi] at h1
    rw [hx] at h2
    have hp1 := (List.mem_filter.mp h1).2
    have hp2 := (List.mem_filter.mp h2).2
    rw [hp1] at hp2
    cases hp2
  · intro tool ht
    by_cases hp : (patterns.any fun pattern => matchesToolPattern tool.name pattern) = true
    · exact Or.inl (hi ▸ List.mem_filter.mpr ⟨ht, hp⟩)
    · refine Or.inr (hx ▸ List.mem_filter.mpr ⟨ht, ?_⟩)
      simp only [Bool.not_eq_true] at hp
      simp [hp]
  · rw [hi, hx]
    have hperm := List.filter_append_perm
      (fun tool => patterns.any fun pattern => matchesToolPattern tool.name pattern)
      result.tools
    calc (result.tools.filter _).length + (result.tools.filter _).length
        = ((result.tools.filter _) ++ (result.tools.filter _)).length :=
          (List.length_append _ _).symm
      _ = result.tools.length := hperm.length_eq

/-- Witness for C7: on the fixture list with the single pattern add, the
include-filtered and exclude-filtered lengths add up to the original. -/
theorem include_exclude_filters_partition_witness :
    (filterToolsListResponse cfgAdd sampleResult).tools.length +
      (filterToolsListResponse cfgNotAdd sampleResult).tools.length =
      sampleResult.tools.length :=
  (include_exclude_filters_partition ["add"] sampleResult cfgAdd cfgNotAdd rfl rfl rfl).2.2

/-- C8: the Pattern Matcher contract. A pattern without a star compares by
exact, case-sensitive string equality; the star pattern matches every name;
a pattern containing a star matches exactly the names described by the
anchored glob semantics GlobSem, where a star stands for any possibly empty
character sequence and every other character for itself; the empty pattern
matches only the empty name. -/
theorem patternMatcher_contract :
    (∀ name pattern : String, pattern.data.contains '*' = false →
      (matchesToolPattern name pattern = true ↔ name = pattern)) ∧
    (∀ name : String, matchesToolPattern name "*" = true) ∧
    (∀ name pattern : String, pattern.data.contains '*' = true →
      (matchesToolPattern name pattern = true ↔ GlobSem pattern.data name.data)) ∧
    (∀ name : String, matchesToolPattern name "" = true ↔ name = "") := by
  refine ⟨?_, ?_, ?_, ?_⟩
  · intro name pattern h
    unfold matchesToolPattern
    rw [if_neg (by rw [h]; exact Bool.false_ne_true)]
    exact beq_iff_eq
  · intro name
    have hsem : GlobSem ['*'] (name.data ++ []) := GlobSem.star GlobSem.nil
    rw [List.append_nil] at hsem
    unfold matchesToolPattern
    rw [if_pos (show ("*" : String).data.contains '*' = true from rfl)]
    exact globMatch_of_sem hsem
  · intro name pattern h
    unfold matchesToolPattern
    rw [if_pos h]
    exact ⟨sem_of_globMatch _ _, globMatch_of_sem⟩
  · intro name
    unfold matchesToolPattern
    rw [if_neg (by exact Bool.false_ne_true)]
    exact beq_iff_eq

/-- Witness for C8: an exact pattern matches itself and the wildcard
pattern for names starting with get and a dash matches get-args. -/
theorem patternMatcher_contract_witness :
    matchesToolPattern "add" "add" = true ∧
    matchesToolPattern "get-args" "get-*" = true := by
  constructor
  · exact (patternMatcher_contract.1 "add" "add" (by decide)).mpr rfl
  · refine (patternMatcher_contract.2.2.1 "get-args" "get-*" (by decide)).mpr ?_
    have hstar : GlobSem ['*'] ['a', 'r', 'g', 's'] := by
      have h := @GlobSem.star [] ['a', 'r', 'g', 's'] [] GlobSem.nil
      rwa [List.append_nil] at h
    exact GlobSem.lit (by decide) (GlobSem.lit (by decide) (GlobSem.lit (by decide)
      (GlobSem.lit (by decide) hstar)))

/-- C9: over a whole run the pump writes exactly one newline-terminated
output per complete line of the byte stream: the writes are determined by
the complete lines alone, so a pending incomplete line at end-of-stream is
never emitted, and every write ends with a newline. -/
theorem pump_emits_only_complete_lines (f : List Char → List Char)
    (chunks : List (List Char)) :
    readLoopWrites f [] chunks = ((splitBuffer chunks.flatten).1).map (writeLine f) ∧
    ∀ w ∈ readLoopWrites f [] chunks, w.getLast? = some '\n' := by
  have hmain := readLoopWrites_flatten f chunks [] (by simp)
  simp only [List.nil_append] at hmain
  refine ⟨hmain, ?_⟩
  rw [hmain]
  intro w hw
  obtain ⟨line, _, rfl⟩ := List.mem_map.mp hw
  by_cases ht : trimChars line = []
  · simp [writeLine, ht]
  · simp [writeLine, ht]

/-- Witness for C9: in a run whose stream ends with the incomplete line bc
pending, the only write is the complete first line, newline-terminated. -/
theorem pump_emits_only_complete_lines_witness :
    (['a', '\n'] : List Char).getLast? = some '\n' :=
  (pump_emits_only_complete_lines id ["a\nbc".data]).2 ['a', '\n'] (by decide)

/-- C10: for every ProxyConfig and tools/list result the filtered tools
array is a sublist of the input array, so order is preserved and nothing is
added or duplicated; and with neither pattern list set the result is
returned identical to the input. -/
theorem filterTools_sublist_and_identity (config : ProxyConfig)
    (result : ToolsListResult) :
    List.Sublist (filterToolsListResponse config result).tools result.tools ∧
    (config.enabledTools = none → config.disabledTools = none →
      filterToolsListResponse config result = result) := by
  constructor
  · by_cases hcond : config.enabledTools = none ∧ config.disabledTools = none
    · simp [filterToolsListResponse, hcond]
    · simp only [filterToolsListResponse, if_neg hcond]
      cases he : config.enabledTools with
      | some l => exact List.filter_sublist _
      | none =>
        cases hd : config.disabledTools with
        | some l => exact List.filter_sublist _
        | none => exact List.Sublist.refl _
  · intro h1 h2
    simp [filterToolsListResponse, h1, h2]

/-- Witness for C10: with no pattern lists the fixture result is returned
unchanged. -/
theorem filterTools_sublist_and_identity_witness :
    filterToolsListResponse cfgPlain sampleResult = sampleResult :=
  (filterTools_sublist_and_identity cfgPlain sampleResult).2 rfl rfl

end McpController
